import Mathlib

/-!
Verification of the xv6 console line discipline (console.c):
circular input buffer, line-editing interrupt handler, blocking reader,
and the termios ioctl.  The driver state `cons` is embedded as `Cons`;
the unsigned C counters `r`, `w`, `e` are modelled as unbounded `Nat`
counters (the C `uint` arithmetic `e - r`, `e == w`, `r == w`,
`e == r + INPUT_BUF` agrees with the `Nat` reading whenever
`r ≤ w ≤ e ∧ e - r ≤ INPUT_BUF`, which is invariant).  Bytes are `Nat`
values below 256; output emitted through `consputc` is collected in a
`List Nat`, with the special token `BACKSPACE = 0x100` for the visual
erase sequence.
-/

namespace Console

/-- `#define INPUT_BUF 128` -/
def INPUT_BUF : Nat := 128

/-- `#define BACKSPACE 0x100`: token passed to consputc for a visual erase. -/
def BACKSPACE : Nat := 0x100

/-- `#define C(x) ((x)-'@')`: Control-x. -/
def ctrl (x : Nat) : Nat := x - 64

/-- Modelled from the spec: `termios.h` is not under src/.  The spec's
ModeConfig has two independent boolean flags, `echo` and `canonical`,
realised in the code as independent bits of `c_lflag`; the conventional
POSIX bit values are used (the development depends only on the two
masks being distinct single bits). -/
def ICANON : Nat := 0x2

/-- Modelled from the spec: the echo bit of `c_lflag` (see `ICANON`). -/
def ECHO : Nat := 0x8

/-- Modelled from the spec: `ioctl.h` is not under src/.  The control
interface recognizes exactly two request codes, GET and SET; they are
modelled as two distinct numbers. -/
def TCGETA : Nat := 0x5401

/-- Modelled from the spec: the SET request code (see `TCGETA`). -/
def TCSETA : Nat := 0x5402

/-- `struct termios`: only `c_lflag` is consulted by the console code. -/
structure Termios where
  c_lflag : Nat
deriving Repr, DecidableEq

/-- The console driver state `cons`: the 128-byte circular buffer, the
read / write(commit) / edit indices, and the termios snapshot.  The
spinlock is represented by the atomicity of the operations below. -/
structure Cons where
  buf : List Nat
  r : Nat
  w : Nat
  e : Nat
  termios : Termios
deriving Repr, DecidableEq

/-- `is_set(mask)`: `(cons.termios.c_lflag & mask) != 0`. -/
def isSet (s : Cons) (mask : Nat) : Bool := s.termios.c_lflag &&& mask ≠ 0

/-- Console state right after `consoleinit`: indices zero and
`cons.termios.c_lflag = ECHO | ICANON`. -/
def consInit : Cons :=
  { buf := List.replicate INPUT_BUF 0, r := 0, w := 0, e := 0
  , termios := { c_lflag := ECHO ||| ICANON } }

/-- The body of the kill-line loop of `consoleintr` (case `C('U')`):
`while(cons.e != cons.w && cons.buf[(cons.e-1) % INPUT_BUF] != '\n')`
`{ cons.e--; consputc(BACKSPACE); }`, run with explicit fuel.
The guard is the C guard verbatim; each taken iteration decrements `e`,
so under the buffer invariant `w ≤ e` the loop runs at most `e - w`
times, the fuel `killLine` supplies. -/
def killLineAux : Nat → Cons → Cons × List Nat
  | 0, s => (s, [])
  | fuel+1, s =>
    if s.e ≠ s.w ∧ s.buf.getD ((s.e - 1) % INPUT_BUF) 0 ≠ 10 then
      let rest := killLineAux fuel { s with e := s.e - 1 }
      (rest.1, BACKSPACE :: rest.2)
    else (s, [])

/-- The kill-line loop: see `killLineAux`.  Returns the new state and
the emitted visual-erase output. -/
def killLine (s : Cons) : Cons × List Nat := killLineAux (s.e - s.w) s

/-- The canonical-mode `switch(c)` at the top of `consoleintr`:
`C('P')` calls `procdump()` (an external collaborator that does not
touch `cons`), `C('U')` runs the kill-line loop, `C('H')` and `'\x7f'`
erase one byte if `cons.e != cons.w`; every other character, and every
character in raw mode, is left for the append path.  None of the cases
returns: control always falls through to the append path below. -/
def consoleintrEdit (c : Nat) (s : Cons) : Cons × List Nat :=
  if isSet s ICANON then
    if c = ctrl 80 then (s, [])          -- C('P'): procdump(), external
    else if c = ctrl 85 then killLine s  -- C('U'): kill line
    else if c = ctrl 72 ∨ c = 0x7f then  -- C('H') or '\x7f': backspace
      if s.e ≠ s.w then ({ s with e := s.e - 1 }, [BACKSPACE])
      else (s, [])
    else (s, [])
  else (s, [])

/-- `consoleintr(c)`: the console input interrupt handler.  After the
canonical-mode switch (`consoleintrEdit`), for every `c` — the switch
never returns — if `c != 0` and `cons.e - cons.r < INPUT_BUF` the
character (with `'\r'` mapped to `'\n'`) is echoed when ECHO is set,
stored at `buf[e % INPUT_BUF]`, and `e` is incremented; then both
branches of the final if perform `cons.w = cons.e; wakeup(&cons.r)`.
Returns the new state and the `consputc` output. -/
def consoleintr (c : Nat) (s : Cons) : Cons × List Nat :=
  let edited := consoleintrEdit c s
  let s1 := edited.1
  if c ≠ 0 ∧ s1.e - s1.r < INPUT_BUF then
    let c' := if c = 13 then 10 else c   -- '\r' → '\n'
    let echo : List Nat := if isSet s1 ECHO then [c'] else []
    let s2 : Cons :=
      { s1 with buf := s1.buf.set (s1.e % INPUT_BUF) c', e := s1.e + 1 }
    -- both the newline/EOF/full/raw branch and the else branch perform
    -- cons.w = cons.e; wakeup(&cons.r);
    ({ s2 with w := s2.e }, edited.2 ++ echo)
  else (s1, edited.2)

/-- Outcome of a `consoleread` call (or of its loop resumed after a
sleep): `ret count s out` models `release(&cons.lock); return count`
with `out` the bytes copied out to the destination so far, and
`blocked s out rem` models reaching `sleep(&cons.r, &cons.lock)` with
`rem` bytes still wanted. -/
inductive ReadRes where
  | ret (count : Int) (s : Cons) (out : List Nat)
  | blocked (s : Cons) (out : List Nat) (rem : Nat)
deriving Repr, DecidableEq

/-- The `while(n > 0)` loop of `consoleread`, with `tgt` the saved
`target`, `n` the remaining count, `acc` the bytes already copied out
in this call, `killed` the `myproc()->killed` flag and `cpOk k` the
success of `either_copyout` for the byte at offset `k = target - n`.
Each iteration: if `r == w`, return `-1` when killed, else sleep;
otherwise pop `c = buf[r++ % INPUT_BUF]`; if `c == C('D')` in canonical
mode, push `r` back when `n < target` and break; copy the byte out
(breaking on failure); `n--`; break on `'\n'` in canonical mode.
The function returns `target - n`. -/
def readLoop (killed : Bool) (cpOk : Nat → Bool) (tgt : Nat) :
    Nat → Cons → List Nat → ReadRes
  | 0, s, acc => .ret (Int.ofNat tgt) s acc
  | n+1, s, acc =>
    if s.r = s.w then
      if killed then .ret (-1) s acc
      else .blocked s acc (n+1)
    else
      let c := s.buf.getD (s.r % INPUT_BUF) 0
      let s1 : Cons := { s with r := s.r + 1 }
      if c = ctrl 68 ∧ isSet s ICANON then  -- C('D'): end-of-file
        if n+1 < tgt then
          -- save ^D for next time: cons.r--
          .ret (Int.ofNat (tgt - (n+1))) s acc
        else
          .ret (Int.ofNat (tgt - (n+1))) s1 acc
      else if ¬ cpOk (tgt - (n+1)) then    -- either_copyout failed
        .ret (Int.ofNat (tgt - (n+1))) s1 acc
      else if c = 10 ∧ isSet s ICANON then -- a whole line has arrived
        .ret (Int.ofNat (tgt - n)) s1 (acc ++ [c])
      else
        readLoop killed cpOk tgt n s1 (acc ++ [c])

/-- `consoleread(user_dst, dst, n)`: `target = n` then the loop. -/
def consoleread (killed : Bool) (cpOk : Nat → Bool) (n : Nat) (s : Cons) :
    ReadRes :=
  readLoop killed cpOk n n s []

/-- The console state after a `ReadRes`: where the lock is released
(return) or dropped (sleep). -/
def ReadRes.state : ReadRes → Cons
  | .ret _ s _ => s
  | .blocked s _ _ => s

/-- The bytes a `ReadRes` has copied to the destination. -/
def ReadRes.out : ReadRes → List Nat
  | .ret _ _ out => out
  | .blocked _ out _ => out

/-- The count a completed `ReadRes` returned (`0` for a sleep point). -/
def ReadRes.count : ReadRes → Int
  | .ret c _ _ => c
  | .blocked _ _ _ => 0

/-- `consoleioctl(ip, req, ttyctl)`.  Any request other than `TCGETA`
and `TCSETA` returns `-1` untouched.  `TCGETA` copies `cons.termios`
out to the caller (failure of `either_copyout` yields `-1`).  The
`TCSETA` branch calls
`either_copyin(&termios_p, 1, (uint64)&(cons.termios), sizeof(struct termios))`,
whose destination is the local pointer variable `termios_p` and whose
source address is `cons.termios`: it reads `cons.termios` and never
writes it, so the stored termios is unchanged in either case (`0` on
copy success, `-1` on failure).  Result: (return value, new state,
termios copied out to the caller if any). -/
def consoleioctl (req : Nat) (arg : Termios) (copyOk : Bool) (s : Cons) :
    Int × Cons × Option Termios :=
  if req ≠ TCGETA ∧ req ≠ TCSETA then (-1, s, none)
  else if req = TCGETA then
    if copyOk then (0, s, some s.termios) else (-1, s, none)
  else -- TCSETA: the copy targets the local termios_p, not cons.termios
    if copyOk then (0, s, none) else (-1, s, none)

/-- `consolewrite(user_src, src, n)`: copies bytes one at a time from
the caller (`cpIn k` is the byte at offset `k`, `none` on copy-in
failure) to `uartputc`, stopping at the first failure; returns the
count transferred and the bytes sent.  It never touches `cons`. -/
def consolewrite (cpIn : Nat → Option Nat) (n : Nat) : Nat × List Nat :=
  go n 0 []
where
  go : Nat → Nat → List Nat → Nat × List Nat
    | 0, i, acc => (i, acc)
    | m+1, i, acc =>
      match cpIn i with
      | none => (i, acc)
      | some c => go m (i+1) (acc ++ [c])

/-- States of `cons` reachable outside the critical section: from
`consoleinit` through any sequence of interrupts, read calls (including
a loop resumed after a sleep, hence arbitrary `tgt`, `n`, `acc`),
ioctls and writes (`consolewrite` never touches `cons`). -/
inductive Reachable : Cons → Prop where
  | init : Reachable consInit
  | intr (c : Nat) {s : Cons} : Reachable s → Reachable (consoleintr c s).1
  | read (killed : Bool) (cpOk : Nat → Bool) (tgt n : Nat) (acc : List Nat)
      {s : Cons} : Reachable s →
      Reachable (readLoop killed cpOk tgt n s acc).state
  | ioctl (req : Nat) (arg : Termios) (copyOk : Bool) {s : Cons} :
      Reachable s → Reachable (consoleioctl req arg copyOk s).2.1
  | write {s : Cons} : Reachable s → Reachable s

/-- Feed a sequence of input bytes through `consoleintr`. -/
def feedAll (cs : List Nat) (s : Cons) : Cons :=
  cs.foldl (fun t c => (consoleintr c t).1) s

/-- The inductive invariant of the console state: `r ≤ w`, `w = e` (the
code commits on every accepted character), and at most `INPUT_BUF`
bytes outstanding. -/
def ConsInv (s : Cons) : Prop :=
  s.r ≤ s.w ∧ s.w = s.e ∧ s.e - s.r ≤ INPUT_BUF

theorem consInit_inv : ConsInv consInit := by
  refine ⟨Nat.le_refl 0, rfl, ?_⟩
  simp [consInit, INPUT_BUF]

/-- When `w = e` the canonical-mode switch is a no-op: the kill-line
fuel `e - w` is zero and the backspace guard `e != w` fails. -/
theorem consoleintrEdit_of_we {s : Cons} (h : s.w = s.e) (c : Nat) :
    consoleintrEdit c s = (s, []) := by
  unfold consoleintrEdit killLine
  rw [← h, Nat.sub_self]
  split
  · split
    · rfl
    · split
      · rfl
      · split
        · split
          · omega
          · rfl
        · rfl
  · rfl

/-- `consoleintr` preserves the invariant. -/
theorem consoleintr_inv {s : Cons} (hs : ConsInv s) (c : Nat) :
    ConsInv (consoleintr c s).1 := by
  obtain ⟨h1, h2, h3⟩ := hs
  unfold consoleintr
  rw [consoleintrEdit_of_we h2 c]
  dsimp only
  split
  · next h =>
    exact ⟨show s.r ≤ s.e + 1 by omega, rfl,
      show s.e + 1 - s.r ≤ INPUT_BUF by omega⟩
  · exact ⟨h1, h2, h3⟩

/-- `consoleintr` never decreases the edit index from a committed
(`w = e`) state: the erase and kill-line branches are no-ops there. -/
theorem consoleintr_e_mono {s : Cons} (h : s.w = s.e) (c : Nat) :
    s.e ≤ (consoleintr c s).1.e := by
  unfold consoleintr
  rw [consoleintrEdit_of_we h c]
  dsimp only
  split
  · exact Nat.le_succ s.e
  · exact Nat.le_refl s.e

/-- The read loop preserves the invariant at every lock-release point
(return or sleep). -/
theorem readLoop_inv (killed : Bool) (cpOk : Nat → Bool) (tgt : Nat) :
    ∀ (n : Nat) (s : Cons) (acc : List Nat), ConsInv s →
      ConsInv (readLoop killed cpOk tgt n s acc).state := by
  intro n
  induction n with
  | zero => intro s acc hs; exact hs
  | succ n ih =>
    intro s acc hs
    obtain ⟨h1, h2, h3⟩ := hs
    unfold readLoop
    split
    · split
      · exact ⟨h1, h2, h3⟩
      · exact ⟨h1, h2, h3⟩
    · next hrw =>
      have hinv1 : ConsInv { s with r := s.r + 1 } :=
        ⟨show s.r + 1 ≤ s.w by omega, h2,
          show s.e - (s.r + 1) ≤ INPUT_BUF by omega⟩
      dsimp only
      split
      · split
        · exact ⟨h1, h2, h3⟩
        · exact hinv1
      · split
        · exact hinv1
        · split
          · exact hinv1
          · exact ih _ _ hinv1

/-- `consoleioctl` never changes the console state: `TCGETA` only reads
it, the `TCSETA` copy targets the local `termios_p`, and any other code
returns `-1` before touching anything. -/
theorem consoleioctl_state_id (req : Nat) (arg : Termios) (copyOk : Bool)
    (s : Cons) : (consoleioctl req arg copyOk s).2.1 = s := by
  unfold consoleioctl
  split
  · rfl
  · split
    · split <;> rfl
    · split <;> rfl

/-- Every reachable console state satisfies the invariant. -/
theorem reachable_inv {s : Cons} (h : Reachable s) : ConsInv s := by
  induction h with
  | init => exact consInit_inv
  | intr c _ ih => exact consoleintr_inv ih c
  | read killed cpOk tgt n acc _ ih => exact readLoop_inv killed cpOk tgt n _ acc ih
  | ioctl req arg copyOk _ ih => rw [consoleioctl_state_id]; exact ih
  | write _ ih => exact ih

/-- C1: in every reachable console state outside the critical section,
the unbounded counters satisfy `cons.r ≤ cons.w ≤ cons.e` and
`cons.e - cons.r ≤ INPUT_BUF`. -/
theorem c1_reachable_index_invariant (s : Cons) (h : Reachable s) :
    s.r ≤ s.w ∧ s.w ≤ s.e ∧ s.e - s.r ≤ INPUT_BUF := by
  obtain ⟨h1, h2, h3⟩ := reachable_inv h
  exact ⟨h1, Nat.le_of_eq h2, h3⟩

theorem c1_reachable_index_invariant_witness :
    (consoleintr 97 consInit).1.r ≤ (consoleintr 97 consInit).1.w ∧
    (consoleintr 97 consInit).1.w ≤ (consoleintr 97 consInit).1.e ∧
    (consoleintr 97 consInit).1.e - (consoleintr 97 consInit).1.r ≤ INPUT_BUF :=
  c1_reachable_index_invariant (consoleintr 97 consInit).1
    (Reachable.intr 97 Reachable.init)

/-- C9: in every reachable state outside the critical section
`cons.w = cons.e` (every accepted character is committed immediately),
and consequently no `consoleintr` call ever decreases the edit index:
the erase and kill-line loops, guarded by `e != w`, never remove a byte
once the call that appended it has returned. -/
theorem c9_committed_equals_edit (s : Cons) (h : Reachable s) :
    s.w = s.e ∧ ∀ c : Nat, s.e ≤ (consoleintr c s).1.e := by
  have h2 := (reachable_inv h).2.1
  exact ⟨h2, fun c => consoleintr_e_mono h2 c⟩

theorem c9_committed_equals_edit_witness :
    consInit.w = consInit.e ∧ consInit.e ≤ (consoleintr 97 consInit).1.e :=
  ⟨(c9_committed_equals_edit consInit Reachable.init).1,
   (c9_committed_equals_edit consInit Reachable.init).2 97⟩

/-- C2 fails on the code: after the canonical input bytes
`a b 0x7f c \n`, a read of size 3 delivers `a b 0x7f` — not `a c \n` —
because the erase guard `cons.e != cons.w` is always false (`w = e` is
committed on every accepted character) and the backspace byte itself
falls through the switch into the append path. -/
theorem c2_del_byte_delivered :
    (consoleread false (fun _ => true) 3
        (feedAll [97, 98, 0x7f, 99, 10] consInit)).out = [97, 98, 0x7f] ∧
    (consoleread false (fun _ => true) 3
        (feedAll [97, 98, 0x7f, 99, 10] consInit)).out ≠ [97, 99, 10] := by
  decide

/-- C3 fails on the code: after canonical input `hello`, kill-line
(`C('U') = 21`) and `hi\n`, a read delivers all nine bytes
`hello \x15 hi \n` — not `hi\n` — because the kill-line loop guard
`cons.e != cons.w` is always false and the `C('U')` byte itself is
appended to the buffer. -/
theorem c3_kill_line_ineffective :
    (consoleread false (fun _ => true) 100
        (feedAll [104, 101, 108, 108, 111, 21, 104, 105, 10] consInit)).out
      = [104, 101, 108, 108, 111, 21, 104, 105, 10] ∧
    (consoleread false (fun _ => true) 100
        (feedAll [104, 101, 108, 108, 111, 21, 104, 105, 10] consInit)).out
      ≠ [104, 105, 10] := by
  decide

/-- C4 fails on the code: a successful `consoleioctl(TCSETA, p)` call
returns 0 yet leaves `cons.termios` unchanged — here still the
initialization value, different from the termios the caller passed —
because the `either_copyin` call in the TCSETA branch has its data
arguments reversed (destination is the local `termios_p`, source is
`cons.termios`). -/
theorem c4_tcseta_ignores_argument :
    (consoleioctl TCSETA { c_lflag := 0 } true consInit).1 = 0 ∧
    (consoleioctl TCSETA { c_lflag := 0 } true consInit).2.1.termios
      = consInit.termios ∧
    consInit.termios ≠ { c_lflag := 0 } := by
  decide

/-- C5: in canonical mode, when the read loop pops the end-of-file
sentinel `C('D')`: if it is the first byte of the call (`n = target`),
the call returns 0 with the sentinel consumed (`r` advanced past it);
if bytes were already transferred (`n < target`), `cons.r` is pushed
back so the sentinel is preserved for the next call and the count so
far is returned.  In both cases the sentinel is never copied to the
destination (`acc` is unchanged). -/
theorem c5_read_eof_sentinel (killed : Bool) (cpOk : Nat → Bool)
    (tgt n : Nat) (s : Cons) (acc : List Nat)
    (hcanon : isSet s ICANON = true)
    (hbyte : s.buf.getD (s.r % INPUT_BUF) 0 = ctrl 68)
    (hne : s.r ≠ s.w) :
    (n + 1 = tgt →
      readLoop killed cpOk tgt (n + 1) s acc =
        .ret 0 { s with r := s.r + 1 } acc) ∧
    (n + 1 < tgt →
      readLoop killed cpOk tgt (n + 1) s acc =
        .ret (Int.ofNat (tgt - (n + 1))) s acc) := by
  have key : readLoop killed cpOk tgt (n + 1) s acc =
      if n + 1 < tgt then .ret (Int.ofNat (tgt - (n + 1))) s acc
      else .ret (Int.ofNat (tgt - (n + 1))) { s with r := s.r + 1 } acc := by
    unfold readLoop
    rw [if_neg hne]
    dsimp only
    rw [hbyte, if_pos ⟨rfl, hcanon⟩]
  constructor
  · intro htgt
    rw [key, if_neg (by omega), htgt, Nat.sub_self]
    rfl
  · intro hlt
    rw [key, if_pos hlt]

theorem c5_read_eof_sentinel_witness :
    isSet (feedAll [4] consInit) ICANON = true ∧
    (feedAll [4] consInit).buf.getD ((feedAll [4] consInit).r % INPUT_BUF) 0
      = ctrl 68 ∧
    (feedAll [4] consInit).r ≠ (feedAll [4] consInit).w ∧
    readLoop false (fun _ => true) 1 1 (feedAll [4] consInit) [] =
      .ret 0 { feedAll [4] consInit with r := (feedAll [4] consInit).r + 1 } [] :=
  ⟨by decide, by decide, by decide,
    (c5_read_eof_sentinel false (fun _ => true) 1 0 (feedAll [4] consInit) []
      (by decide) (by decide) (by decide)).1 rfl⟩

/-- C6: when the buffer is empty (`cons.r = cons.w`) and the calling
task is killed, the read loop returns -1 (the Cancelled error) rather
than a byte count — even when bytes were already copied out earlier in
the same call — and the console state is left untouched (no partial
pop). -/
theorem c6_killed_empty_returns_cancelled (cpOk : Nat → Bool)
    (tgt n : Nat) (s : Cons) (acc : List Nat) (h : s.r = s.w) :
    readLoop true cpOk tgt (n + 1) s acc = .ret (-1) s acc := by
  unfold readLoop
  rw [if_pos h]
  rfl

theorem c6_killed_empty_returns_cancelled_witness :
    consInit.r = consInit.w ∧
    readLoop true (fun _ => true) 3 1 consInit [97, 98] =
      .ret (-1) consInit [97, 98] :=
  ⟨rfl, c6_killed_empty_returns_cancelled (fun _ => true) 3 0 consInit
    [97, 98] rfl⟩

/-- C7: a non-zero input byte that is not a canonical-mode editing
character is silently dropped by `consoleintr` when the buffer is full
(`cons.e - cons.r = INPUT_BUF`): the state is completely unchanged and
no output (echo included) is emitted, whatever the ECHO flag. -/
theorem c7_full_buffer_drop (c : Nat) (s : Cons)
    (hc : c ≠ 0)
    (hfull : s.e - s.r = INPUT_BUF)
    (hedit : isSet s ICANON = true →
      c ≠ ctrl 80 ∧ c ≠ ctrl 85 ∧ c ≠ ctrl 72 ∧ c ≠ 0x7f) :
    consoleintr c s = (s, []) := by
  have hE : consoleintrEdit c s = (s, []) := by
    unfold consoleintrEdit
    split
    · next hcanon =>
      obtain ⟨hP, hU, hH, hD⟩ := hedit hcanon
      rw [if_neg hP, if_neg hU, if_neg (not_or.mpr ⟨hH, hD⟩)]
    · rfl
  unfold consoleintr
  rw [hE]
  dsimp only
  rw [if_neg (by omega)]

/-- A full console state: 128 plain characters appended and committed,
none read yet — the state `feedAll` of 128 bytes 97 produces. -/
def consFull : Cons :=
  { buf := List.replicate INPUT_BUF 97, r := 0, w := INPUT_BUF
  , e := INPUT_BUF, termios := { c_lflag := ECHO ||| ICANON } }

theorem c7_full_buffer_drop_witness :
    ((98 : Nat) ≠ 0 ∧ consFull.e - consFull.r = INPUT_BUF) ∧
    consoleintr 98 consFull = (consFull, []) :=
  ⟨⟨by decide, by decide⟩,
    c7_full_buffer_drop 98 consFull (by decide) (by decide)
      (fun _ => by decide)⟩

/-- C8: a control request whose code is neither `TCGETA` nor `TCSETA`
makes `consoleioctl` return -1 with no mutation: the console state
(stored termios and buffer indices included) is unchanged and nothing
is copied out. -/
theorem c8_invalid_request_no_mutation (req : Nat) (arg : Termios)
    (copyOk : Bool) (s : Cons) (h1 : req ≠ TCGETA) (h2 : req ≠ TCSETA) :
    consoleioctl req arg copyOk s = (-1, s, none) := by
  unfold consoleioctl
  rw [if_pos ⟨h1, h2⟩]

theorem c8_invalid_request_no_mutation_witness :
    ((0 : Nat) ≠ TCGETA ∧ (0 : Nat) ≠ TCSETA) ∧
    consoleioctl 0 { c_lflag := 0 } true consInit = (-1, consInit, none) :=
  ⟨⟨by decide, by decide⟩,
    c8_invalid_request_no_mutation 0 { c_lflag := 0 } true consInit
      (by decide) (by decide)⟩

/-- C10: if the copy-out step fails after a byte (not the canonical
end-of-file sentinel) has been popped, the read loop stops with the
count transferred before the fault — a non-negative count, not an
error code — and the read index stays advanced: the popped byte is
removed from the buffer without having been delivered. -/
theorem c10_copyout_failure_loses_byte (killed : Bool) (cpOk : Nat → Bool)
    (tgt n : Nat) (s : Cons) (acc : List Nat)
    (hne : s.r ≠ s.w)
    (hnoteof : ¬(s.buf.getD (s.r % INPUT_BUF) 0 = ctrl 68 ∧
      isSet s ICANON = true))
    (hfail : cpOk (tgt - (n + 1)) = false) :
    readLoop killed cpOk tgt (n + 1) s acc =
      .ret (Int.ofNat (tgt - (n + 1))) { s with r := s.r + 1 } acc := by
  unfold readLoop
  rw [if_neg hne]
  dsimp only
  rw [if_neg hnoteof, if_pos (by simp [hfail])]

theorem c10_copyout_failure_loses_byte_witness :
    (feedAll [97] consInit).r ≠ (feedAll [97] consInit).w ∧
    readLoop false (fun _ => false) 1 1 (feedAll [97] consInit) [] =
      .ret 0 { feedAll [97] consInit with r := (feedAll [97] consInit).r + 1 } [] :=
  ⟨by decide,
    c10_copyout_failure_loses_byte false (fun _ => false) 1 0
      (feedAll [97] consInit) [] (by decide) (by decide) rfl⟩

end Console
